import Mathlib

/-!
Verification of the conference-management-system (CMS) backend logic:
the scheduled notification jobs (`sendReviewReminders`, `sendWeeklyDigest`
in `backend/routes/scheduledTasks`), the OAuth account-linking and
registration logic (`routes/auth`), the review aggregation, and the
frontend PDF filename helper (`utils/pdfHelper.js`).

The JavaScript code is embedded shallowly: Mongo documents become Lean
structures, collections become lists, queries become list filters, and
`Date` values become integer millisecond timestamps.
-/

namespace CMS

/-- Status values of a `Submission` document. -/
inductive SubmissionStatus where
  | submitted
  | under_review
  | review_completed
  | accepted
  | rejected
  | camera_ready_pending
  | final_submitted
deriving DecidableEq, Repr

/-- Status values of a `Review` document. -/
inductive ReviewStatus where
  | draft
  | in_progress
  | submitted
  | pending_revision
deriving DecidableEq, Repr

/-- Reviewer recommendation values. -/
inductive Recommendation where
  | accept
  | reject
  | minorRevision
  | majorRevision
deriving DecidableEq, Repr

/-- User roles. -/
inductive Role where
  | organizer
  | author
  | reviewer
  | participant
deriving DecidableEq, Repr

/-- A `Conference` document (fields used by the scheduled jobs).
`startDate`/`endDate` are millisecond timestamps; `endDate` may be null. -/
structure Conference where
  id : Nat
  name : String
  organizerId : Nat
  startDate : Int
  endDate : Option Int
deriving DecidableEq, Repr

/-- A `Submission` document (fields used by the scheduled jobs). -/
structure Submission where
  id : Nat
  conferenceId : Nat
  title : String
  status : SubmissionStatus
  assignedReviewers : List Nat
deriving DecidableEq, Repr

/-- A `Review` document. `recommendation` is optional (draft reviews may
not carry one). -/
structure Review where
  id : Nat
  submissionId : Nat
  reviewerId : Nat
  status : ReviewStatus
  score : Int
  recommendation : Option Recommendation
deriving DecidableEq, Repr

/-- A `User` document (fields used by the jobs; `email` is optional at
the lookup site, where the code guards with `reviewer?.email`). -/
structure UserDoc where
  id : Nat
  name : String
  email : Option String
deriving DecidableEq, Repr

/-- The document store visible to the scheduled jobs. -/
structure Db where
  conferences : List Conference
  submissions : List Submission
  reviews : List Review
  users : List UserDoc
deriving Repr

/-- JavaScript truthiness of the optional `email` field
(`reviewer?.email`): present and non-empty. -/
def emailTruthy : Option String → Bool
  | some e => e ≠ ""
  | none => false

/-- Milliseconds in one day, the unit of `Date.setDate` arithmetic. -/
def msPerDay : Int := 86400000

/-! ### Review reminder job (`sendReviewReminders`) -/

/-- The `Conference.find` window of `sendReviewReminders`:
`startDate: { $gte: sevenDaysFromNow, $lt: eightDaysFromNow }`. -/
def reminderWindow (now : Int) (c : Conference) : Bool :=
  decide (now + 7 * msPerDay ≤ c.startDate) && decide (c.startDate < now + 8 * msPerDay)

/-- Conferences selected by the reminder job when it runs at time `now`. -/
def upcomingConferences (now : Int) (db : Db) : List Conference :=
  db.conferences.filter (reminderWindow now)

/-- The `Submission.find` of the reminder job:
`conferenceId: conference._id, status: { $in: ['submitted', 'under_review'] }`. -/
def reminderSubmissions (db : Db) (c : Conference) : List Submission :=
  db.submissions.filter fun s =>
    s.conferenceId = c.id &&
      (s.status = SubmissionStatus.submitted || s.status = SubmissionStatus.under_review)

/-- Status filter of the reminder job's completed-review query
(`status: { $in: ['submitted', 'pending_revision'] }`, scheduledTasks
lines 91–94). -/
def reminderCompletedStatus (st : ReviewStatus) : Bool :=
  st = ReviewStatus.submitted || st = ReviewStatus.pending_revision

/-- Status filter of the weekly digest's `completedReviews` count
(`status: { $in: ['submitted', 'pending_revision'] }`, scheduledTasks
lines 148–151). -/
def digestCompletedStatus (st : ReviewStatus) : Bool :=
  st = ReviewStatus.submitted || st = ReviewStatus.pending_revision

/-- Status filter of the weekly digest's awaiting-decision loop
(`status: { $in: ['submitted', 'pending_revision'] }`, scheduledTasks
lines 165–168). -/
def awaitingCompletedStatus (st : ReviewStatus) : Bool :=
  st = ReviewStatus.submitted || st = ReviewStatus.pending_revision

/-- `completedReviewerIds` of the reminder job: reviewer ids of the
completed reviews of submission `s`. -/
def completedReviewerIds (db : Db) (s : Submission) : List Nat :=
  (db.reviews.filter fun r =>
    r.submissionId = s.id && reminderCompletedStatus r.status).map (·.reviewerId)

/-- `pendingReviewers`: assigned reviewers not among the completed
reviewer ids. -/
def pendingReviewers (db : Db) (s : Submission) : List Nat :=
  s.assignedReviewers.filter fun rId => !(completedReviewerIds db s).contains rId

/-- One dispatched reminder email (recipient address plus the reviewer,
submission and conference it was generated from). -/
structure ReminderEmail where
  recipient : String
  reviewerId : Nat
  submissionId : Nat
  conferenceId : Nat
deriving DecidableEq, Repr

/-- `User.findById` of the job. -/
def findUser (db : Db) (uid : Nat) : Option UserDoc :=
  db.users.find? (·.id = uid)

/-- Emails dispatched by the reminder job for one submission: skip the
submission when `assignedReviewers` is missing/empty, otherwise one email
per pending reviewer whose user record resolves with a truthy email. -/
def remindersForSubmission (db : Db) (c : Conference) (s : Submission) :
    List ReminderEmail :=
  if s.assignedReviewers = [] then []
  else
    (pendingReviewers db s).filterMap fun rId =>
      match findUser db rId with
      | some u =>
          match u.email with
          | some e => if e ≠ "" then some ⟨e, rId, s.id, c.id⟩ else none
          | none => none
      | none => none

/-- All emails dispatched by one run of `sendReviewReminders` at time
`now`. -/
def sendReviewReminders (now : Int) (db : Db) : List ReminderEmail :=
  (upcomingConferences now db).flatMap fun c =>
    (reminderSubmissions db c).flatMap fun s => remindersForSubmission db c s

/-! ### Weekly digest job (`sendWeeklyDigest`) -/

/-- The `Conference.find` of the weekly digest:
`$or: [{ endDate: { $gte: new Date() } }, { endDate: null }]`. -/
def activeConferences (now : Int) (db : Db) : List Conference :=
  db.conferences.filter fun c =>
    match c.endDate with
    | some e => decide (now ≤ e)
    | none => true

/-- Ids of a conference's submissions
(`Submission.find({ conferenceId }).distinct('_id')`). -/
def confSubmissionIds (db : Db) (cid : Nat) : List Nat :=
  (db.submissions.filter (·.conferenceId = cid)).map (·.id)

/-- The per-conference statistics of the weekly digest. -/
structure DigestStats where
  totalSubmissions : Nat
  pendingReviews : Nat
  completedReviews : Nat
  awaitingDecision : Nat
  acceptedPapers : Nat
  rejectedPapers : Nat
deriving DecidableEq, Repr

/-- The `submissionsWithReviews` query of the digest:
`status: 'under_review', assignedReviewers: { $exists: true, $ne: [] }`. -/
def submissionsWithReviews (db : Db) (c : Conference) : List Submission :=
  db.submissions.filter fun s =>
    s.conferenceId = c.id && s.status = SubmissionStatus.under_review &&
      s.assignedReviewers ≠ []

/-- Completed-review count of one submission inside the awaiting-decision
loop. -/
def awaitingReviewCount (db : Db) (s : Submission) : Nat :=
  db.reviews.countP fun r =>
    r.submissionId = s.id && awaitingCompletedStatus r.status

/-- The digest's `awaitingDecision` accumulator loop. -/
def awaitingDecisionCount (db : Db) (c : Conference) : Nat :=
  (submissionsWithReviews db c).foldl
    (fun acc s =>
      if awaitingReviewCount db s ≥ s.assignedReviewers.length then acc + 1 else acc)
    0

/-- The `stats` object computed by `sendWeeklyDigest` for one
conference. -/
def digestStats (db : Db) (c : Conference) : DigestStats :=
  { totalSubmissions := db.submissions.countP (·.conferenceId = c.id)
    pendingReviews := db.reviews.countP fun r =>
      (confSubmissionIds db c.id).contains r.submissionId &&
        r.status = ReviewStatus.in_progress
    completedReviews := db.reviews.countP fun r =>
      (confSubmissionIds db c.id).contains r.submissionId &&
        digestCompletedStatus r.status
    awaitingDecision := awaitingDecisionCount db c
    acceptedPapers := db.submissions.countP fun s =>
      s.conferenceId = c.id && s.status = SubmissionStatus.accepted
    rejectedPapers := db.submissions.countP fun s =>
      s.conferenceId = c.id && s.status = SubmissionStatus.rejected }

/-- One digest email: organizer recipient, conference and the stats
payload. -/
structure DigestEmail where
  recipient : String
  conferenceId : Nat
  stats : DigestStats
deriving DecidableEq, Repr

/-- The digest email produced for one conference, when the organizer
resolves with a truthy email (`if (organizer?.email)`). -/
def digestEmailFor (db : Db) (c : Conference) : Option DigestEmail :=
  match findUser db c.organizerId with
  | some o =>
      match o.email with
      | some e => if e ≠ "" then some ⟨e, c.id, digestStats db c⟩ else none
      | none => none
  | none => none

/-- Conference loop of `sendWeeklyDigest` under a failure model.
`statsOk c` says whether the awaited database work for conference `c`
(stats queries, organizer lookup) succeeds; a failure throws into the
job's single outer `try/catch`, ending the loop with the emails
dispatched so far.  `dispatchOk` models the outcome of the
fire-and-forget `sendEmail(...).catch(...)`: it is recorded with each
attempted email but cannot alter control flow. -/
def digestLoop (db : Db) (statsOk : Conference → Bool)
    (dispatchOk : DigestEmail → Bool) : List Conference → List (DigestEmail × Bool)
  | [] => []
  | c :: rest =>
      if statsOk c then
        match digestEmailFor db c with
        | some m => (m, dispatchOk m) :: digestLoop db statsOk dispatchOk rest
        | none => digestLoop db statsOk dispatchOk rest
      else []

/-- One run of `sendWeeklyDigest` at time `now`: emails attempted,
paired with their dispatch outcome. -/
def sendWeeklyDigest (now : Int) (db : Db) (statsOk : Conference → Bool)
    (dispatchOk : DigestEmail → Bool) : List (DigestEmail × Bool) :=
  digestLoop db statsOk dispatchOk (activeConferences now db)

/-! ### Auth routes (`routes/auth`): register and OAuth callbacks -/

/-- A `User` document as seen by the auth routes. -/
structure UserAcc where
  id : Nat
  name : String
  email : String
  passwordHash : Option String := none
  role : Role
  expertiseDomains : List String := []
  googleId : Option String := none
  googleAccessToken : Option String := none
  googleRefreshToken : Option String := none
  orcid : Option String := none
  orcidAccessToken : Option String := none
  profilePicture : Option String := none
  affiliation : String := ""
deriving DecidableEq, Repr

/-- Distinguishes the error responses of the auth routes. -/
inductive AuthErrTag where
  /-- register / OAuth: email already registered as organizer. -/
  | emailReservedForOrganizer
  /-- register / OAuth: organizer must use a unique email. -/
  | organizerNeedsUniqueEmail
  /-- register: same role already exists for this email. -/
  | sameRoleExists
  /-- register: email registered, login for other roles. -/
  | emailRegisteredOtherRoles
  /-- OAuth provider-id match: role change to/from organizer refused. -/
  | organizerRoleChangeForbidden
deriving DecidableEq, Repr

/-- Outcome of an auth route: the user collection afterwards and either
an error response (HTTP status, message tag) or the authenticated user. -/
structure AuthOutcome where
  db : List UserAcc
  result : Except (Nat × AuthErrTag) UserAcc
deriving Repr

/-- `user.save()` on a fetched document: replace the record with the
same `_id`. -/
def saveUser (db : List UserAcc) (u : UserAcc) : List UserAcc :=
  db.map fun v => if v.id = u.id then u else v

/-- A fresh `_id` for a newly created document. -/
def freshId (db : List UserAcc) : Nat :=
  (db.map (·.id)).foldr max 0 + 1

/-- JavaScript `a || b` on strings: `a` unless it is empty. -/
def jsOr (a b : String) : String := if a = "" then b else a

/-- The roles that may share an email (`allowedRoles` in the OAuth
callbacks). -/
def allowedRoles : List Role := [Role.author, Role.reviewer, Role.participant]

/-- `POST /api/auth/register` after validation, embedding the
existing-email branching of auth lines 33–78. -/
def register (db : List UserAcc) (name email password : String) (role : Role)
    (expertiseDomains : List String) : AuthOutcome :=
  match db.filter (·.email = email) with
  | existing@(_ :: _) =>
      if existing.any (·.role = Role.organizer) then
        ⟨db, .error (400, .emailReservedForOrganizer)⟩
      else if role = Role.organizer then
        ⟨db, .error (400, .organizerNeedsUniqueEmail)⟩
      else if existing.any (·.role = role) then
        ⟨db, .error (400, .sameRoleExists)⟩
      else
        ⟨db, .error (400, .emailRegisteredOtherRoles)⟩
  | [] =>
      let u : UserAcc :=
        { id := freshId db, name := name, email := email,
          passwordHash := some password, role := role,
          expertiseDomains := expertiseDomains }
      ⟨db ++ [u], .ok u⟩

/-- `POST /api/auth/google/callback` from the point where the Google
profile (`googleId`, `email`, `name`, `picture`) has been fetched,
embedding the account-linking branching of auth lines 332–412. -/
def googleCallback (db : List UserAcc) (googleId email gname : String)
    (picture : Option String) (role : Option Role)
    (accessToken : String) (refreshToken : Option String) : AuthOutcome :=
  let requestedRole := role.getD Role.author
  match db.find? (·.googleId = some googleId) with
  | some user =>
      if role.isSome ∧ user.role ≠ requestedRole then
        if user.role = Role.organizer ∨ requestedRole = Role.organizer then
          ⟨db, .error (403, .organizerRoleChangeForbidden)⟩
        else
          let u :=
            { user with role := requestedRole,
                        googleAccessToken := some accessToken,
                        googleRefreshToken :=
                          match refreshToken with
                          | some rt => some rt
                          | none => user.googleRefreshToken }
          ⟨saveUser db u, .ok u⟩
      else
        let u :=
          { user with googleAccessToken := some accessToken,
                      googleRefreshToken :=
                        match refreshToken with
                        | some rt => some rt
                        | none => user.googleRefreshToken }
        ⟨saveUser db u, .ok u⟩
  | none =>
      match db.filter (·.email = email) with
      | existing@(u0 :: _) =>
          if existing.any (·.role = Role.organizer) then
            ⟨db, .error (403, .emailReservedForOrganizer)⟩
          else if requestedRole = Role.organizer then
            ⟨db, .error (403, .organizerNeedsUniqueEmail)⟩
          else
            let u :=
              { u0 with googleId := some googleId,
                        googleAccessToken := some accessToken,
                        googleRefreshToken :=
                          match refreshToken with
                          | some rt => some rt
                          | none => u0.googleRefreshToken,
                        profilePicture :=
                          match picture, u0.profilePicture with
                          | some p, none => some p
                          | _, old => old,
                        role :=
                          if role.isSome ∧ requestedRole ∈ allowedRoles then
                            requestedRole
                          else u0.role }
            ⟨saveUser db u, .ok u⟩
      | [] =>
          let u : UserAcc :=
            { id := freshId db,
              name := jsOr gname ("Google User " ++ googleId),
              email := email, role := requestedRole,
              googleId := some googleId,
              googleAccessToken := some accessToken,
              googleRefreshToken := refreshToken,
              profilePicture := picture }
          ⟨db ++ [u], .ok u⟩

/-- The email generated for an ORCID account: the ORCID iD with dashes
removed, followed by `@orcid.user`. -/
def orcidEmail (orcid : String) : String :=
  String.mk (orcid.toList.filter (· ≠ '-')) ++ "@orcid.user"

/-- `POST /api/auth/orcid/callback` from the point where the token
response (`orcid`, `name`) and the optional public profile
(`profileName`, `profileAffiliation`) have been fetched, embedding the
account-linking branching of auth lines 507–618. -/
def orcidCallback (db : List UserAcc) (orcid oname : String)
    (profileName : String) (profileAffiliation : String)
    (role : Option Role) (accessToken : String) : AuthOutcome :=
  let requestedRole := role.getD Role.author
  match db.find? (·.orcid = some orcid) with
  | some user =>
      if role.isSome ∧ user.role ≠ requestedRole then
        if user.role = Role.organizer ∨ requestedRole = Role.organizer then
          ⟨db, .error (403, .organizerRoleChangeForbidden)⟩
        else
          let u :=
            { user with role := requestedRole,
                        orcidAccessToken := some accessToken }
          ⟨saveUser db u, .ok u⟩
      else
        let u := { user with orcidAccessToken := some accessToken }
        ⟨saveUser db u, .ok u⟩
  | none =>
      let email := orcidEmail orcid
      match db.filter (·.email = email) with
      | existing@(u0 :: _) =>
          if existing.any (·.role = Role.organizer) then
            ⟨db, .error (403, .emailReservedForOrganizer)⟩
          else if requestedRole = Role.organizer then
            ⟨db, .error (403, .organizerNeedsUniqueEmail)⟩
          else
            let u :=
              { u0 with orcid := some orcid,
                        orcidAccessToken := some accessToken,
                        name := jsOr profileName (jsOr oname u0.name),
                        affiliation :=
                          if profileAffiliation ≠ "" then profileAffiliation
                          else u0.affiliation,
                        role :=
                          if role.isSome ∧ requestedRole ∈ allowedRoles then
                            requestedRole
                          else u0.role }
            ⟨saveUser db u, .ok u⟩
      | [] =>
          let u : UserAcc :=
            { id := freshId db,
              name := jsOr profileName (jsOr oname ("ORCID User " ++ orcid)),
              email := email, role := requestedRole,
              orcid := some orcid,
              orcidAccessToken := some accessToken,
              affiliation := profileAffiliation }
          ⟨db ++ [u], .ok u⟩

/-! ### Review aggregation (submission-details endpoint) -/

/-- The aggregate verdict labels. -/
inductive Decision where
  | ACCEPTED
  | REJECTED
  | NEEDS_REVISION
deriving DecidableEq, Repr

/-- Modelled from the spec: the aggregation's completed-review filter
(spec §4.1, "completed: count of reviews with status in
{submitted, pending_revision}"); the submission-details endpoint that
computes the aggregation is not among the provided source files. -/
def aggCompletedReviews (reviews : List Review) : List Review :=
  reviews.filter fun r =>
    r.status = ReviewStatus.submitted || r.status = ReviewStatus.pending_revision

/-- Modelled from the spec: `majorityDecision` (spec §4.1) — computed
only when the completed count is at least `required` and `required > 0`;
the recommendation category with the strictly highest count wins
(minor/major revision both counting toward NEEDS_REVISION), and any tie
resolves to NEEDS_REVISION (conservative bias, matching the spec §8 test
that completed reviews [ACCEPT, REJECT] with required = 2 yield
NEEDS_REVISION).  The endpoint computing this is not among the provided
source files. -/
def majorityDecision (reviews : List Review) (required : Nat) : Option Decision :=
  let completed := aggCompletedReviews reviews
  if required > 0 ∧ completed.length ≥ required then
    let acceptVotes := completed.countP (·.recommendation = some Recommendation.accept)
    let rejectVotes := completed.countP (·.recommendation = some Recommendation.reject)
    let revisionVotes := completed.countP fun r =>
      r.recommendation = some Recommendation.minorRevision ||
        r.recommendation = some Recommendation.majorRevision
    if acceptVotes > rejectVotes ∧ acceptVotes > revisionVotes then
      some Decision.ACCEPTED
    else if rejectVotes > acceptVotes ∧ rejectVotes > revisionVotes then
      some Decision.REJECTED
    else
      some Decision.NEEDS_REVISION
  else
    none

/-! ### PDF filename helper (`frontend/src/utils/pdfHelper.js`)

Strings are embedded as `List Char`; JavaScript string methods become
list operations. -/

/-- One character of the safety cleanup: characters outside
`a-zA-Z0-9._-` become underscores. -/
def sanitizeChar (c : Char) : Char :=
  if c.isAlpha || c.isDigit || c = '.' || c = '_' || c = '-' then c else '_'

/-- The safety cleanup applied at the end of `extractFilename`. -/
def sanitizeFilename (l : List Char) : List Char :=
  l.map sanitizeChar

/-- `urlPath.split('/').pop()`: the part after the last slash. -/
def lastSegment (l : List Char) : List Char :=
  (l.reverse.takeWhile (· ≠ '/')).reverse

/-- The cleanup of Cloudinary flags
(`filename.replace` of a leading `fl_inline/` or `fl_attachment/`). -/
def stripFlagMarker (l : List Char) : List Char :=
  if List.isPrefixOf "fl_inline/".toList l then l.drop 10
  else if List.isPrefixOf "fl_attachment/".toList l then l.drop 14
  else l

/-- Whether the regex `paper-\d+-\d+` matches at the head of `l`:
literal `paper-`, one or more digits, a dash, and a digit. -/
def paperNumNumAt (l : List Char) : Bool :=
  if List.isPrefixOf "paper-".toList l then
    let rest := l.drop 6
    let run := rest.takeWhile Char.isDigit
    run ≠ [] &&
      match rest.drop run.length with
      | '-' :: c :: _ => c.isDigit
      | _ => false
  else false

/-- Whether the regex `paper-\d+-\d+` matches anywhere in `l`. -/
def hasPaperNumNum : List Char → Bool
  | [] => false
  | c :: t => paperNumNumAt (c :: t) || hasPaperNumNum t

/-- The cloudinary-style-name test of `extractFilename`:
`filename.startsWith('paper-')` and the regex test above. -/
def isPaperStyle (l : List Char) : Bool :=
  List.isPrefixOf "paper-".toList l && hasPaperNumNum l

/-- `filename.toLowerCase().endsWith('.pdf')`. -/
def endsWithPdfCI (l : List Char) : Bool :=
  List.isSuffixOf ".pdf".toList (l.map Char.toLower)

/-- `extractFilename(fileUrl, defaultName)` of `pdfHelper.js`: empty
input falls back to the default name with `.pdf`; otherwise take the
last path segment with query parameters removed, strip a Cloudinary flag
marker, replace cloudinary-style generated names by the default, append
`.pdf` when missing, and sanitize. -/
def extractFilename (fileUrl : List Char) (defaultName : List Char) : List Char :=
  if fileUrl = [] then defaultName ++ ".pdf".toList
  else
    let urlPath := fileUrl.takeWhile (· ≠ '?')
    let f0 := lastSegment urlPath
    let f1 := stripFlagMarker f0
    let f2 := if isPaperStyle f1 then defaultName else f1
    let f3 := if endsWithPdfCI f2 then f2 else f2 ++ ".pdf".toList
    sanitizeFilename f3

/-! ### Example database for the weekly-digest scenario -/

/-- The conference of the digest scenario of spec §8. -/
def digestExampleConf : Conference := ⟨1, "Conf", 50, 0, none⟩

/-- Ten submissions: 3 accepted, 2 rejected, 5 under review with one
assigned reviewer each; each of the 5 has its review submitted. -/
def digestExampleDb : Db :=
  { conferences := [digestExampleConf]
    submissions :=
      [⟨1, 1, "p1", SubmissionStatus.accepted, []⟩,
       ⟨2, 1, "p2", SubmissionStatus.accepted, []⟩,
       ⟨3, 1, "p3", SubmissionStatus.accepted, []⟩,
       ⟨4, 1, "p4", SubmissionStatus.rejected, []⟩,
       ⟨5, 1, "p5", SubmissionStatus.rejected, []⟩,
       ⟨6, 1, "p6", SubmissionStatus.under_review, [100]⟩,
       ⟨7, 1, "p7", SubmissionStatus.under_review, [100]⟩,
       ⟨8, 1, "p8", SubmissionStatus.under_review, [100]⟩,
       ⟨9, 1, "p9", SubmissionStatus.under_review, [100]⟩,
       ⟨10, 1, "p10", SubmissionStatus.under_review, [100]⟩]
    reviews :=
      [⟨1, 6, 100, ReviewStatus.submitted, 7, some Recommendation.accept⟩,
       ⟨2, 7, 100, ReviewStatus.submitted, 7, some Recommendation.accept⟩,
       ⟨3, 8, 100, ReviewStatus.submitted, 7, some Recommendation.accept⟩,
       ⟨4, 9, 100, ReviewStatus.submitted, 7, some Recommendation.accept⟩,
       ⟨5, 10, 100, ReviewStatus.submitted, 7, some Recommendation.accept⟩]
    users := [⟨50, "Org", some "org@conf.org"⟩] }

/-! ### Example database for the review-reminder scenario -/

/-- A conference starting exactly 7 days after time 0. -/
def reminderExampleConf : Conference := ⟨1, "C", 50, 7 * msPerDay, none⟩

/-- A submission under review with two assigned reviewers. -/
def reminderExampleSub : Submission :=
  ⟨1, 1, "p", SubmissionStatus.under_review, [100, 101]⟩

/-- Reviewer 100 has submitted a review, reviewer 101 has not. -/
def reminderExampleDb : Db :=
  { conferences := [reminderExampleConf]
    submissions := [reminderExampleSub]
    reviews := [⟨1, 1, 100, ReviewStatus.submitted, 7, some Recommendation.accept⟩]
    users := [⟨100, "R1", some "r1@x.com"⟩, ⟨101, "R2", some "r2@x.com"⟩] }

/-! ### Example database for the weekly-digest failure scenario -/

/-- First active conference of the failure scenario. -/
def failConf1 : Conference := ⟨1, "A", 50, 0, none⟩

/-- Second active conference of the failure scenario. -/
def failConf2 : Conference := ⟨2, "B", 50, 0, none⟩

/-- Two active conferences sharing an organizer with a valid email. -/
def failDb : Db :=
  { conferences := [failConf1, failConf2]
    submissions := []
    reviews := []
    users := [⟨50, "Org", some "org@conf.org"⟩] }

/-! ## Theorems -/

/-- A counting `foldl` with an accumulator equals `countP`. -/
theorem foldl_if_count {α : Type} (p : α → Prop) [DecidablePred p]
    (l : List α) (n : Nat) :
    l.foldl (fun acc s => if p s then acc + 1 else acc) n =
      n + l.countP (fun s => decide (p s)) := by
  induction l generalizing n with
  | nil => simp
  | cons a t ih =>
      by_cases h : p a
      · simp [List.countP_cons, h, ih]
        omega
      · simp [List.countP_cons, h, ih]

/-- Counting inside a filter equals counting the conjunction. -/
theorem countP_filter_eq {α : Type} (l : List α) (q p : α → Bool) :
    (l.filter q).countP p = l.countP fun a => q a && p a := by
  induction l with
  | nil => simp
  | cons a t ih =>
      by_cases h : q a <;>
        by_cases h2 : p a <;>
          simp [List.filter_cons, List.countP_cons, h, h2, ih]

/-- Negated `contains` means non-membership. -/
theorem not_contains_iff (l : List Nat) (a : Nat) : (!l.contains a) = true ↔ a ∉ l := by
  simp

/-- A `flatMap` whose pieces contain no match contains no match. -/
theorem countP_flatMap_zero {α β : Type} (f : α → List β) (q : β → Bool)
    (l : List α) (h : ∀ x ∈ l, (f x).countP q = 0) :
    (l.flatMap f).countP q = 0 := by
  induction l with
  | nil => rfl
  | cons x t ih =>
      rw [List.flatMap_cons, List.countP_append,
        h x (List.mem_cons_self x t),
        ih fun y hy => h y (List.mem_cons_of_mem _ hy)]

/-- When exactly one element of the outer list can contribute matches,
a `flatMap` count reduces to that element's count. -/
theorem countP_flatMap_single {α β : Type} [DecidableEq α] (f : α → List β)
    (q : β → Bool) (a : α) :
    ∀ l : List α, l.count a = 1 →
      (∀ x ∈ l, x ≠ a → (f x).countP q = 0) →
      (l.flatMap f).countP q = (f a).countP q := by
  intro l
  induction l with
  | nil => intro h; simp at h
  | cons x t ih =>
      intro hcount hzero
      rw [List.flatMap_cons, List.countP_append]
      by_cases hx : a = x
      · subst hx
        have ht : t.count a = 0 := by
          rw [List.count_cons] at hcount
          simp at hcount
          omega
        have hz : (t.flatMap f).countP q = 0 :=
          countP_flatMap_zero f q t fun y hy =>
            hzero y (List.mem_cons_of_mem _ hy)
              (fun hya => (List.count_eq_zero.mp ht) (hya ▸ hy))
        rw [hz]
        omega
      · have hxa : ¬(x = a) := fun h => hx h.symm
        have hcount' : t.count a = 1 := by
          rw [List.count_cons] at hcount
          simp [hxa] at hcount
          exact hcount
        rw [hzero x (List.mem_cons_self x t) (fun h => hx h.symm),
          ih hcount' fun y hy hne => hzero y (List.mem_cons_of_mem _ hy) hne]
        omega

/-- The per-submission reminder emails as a `filterMap` over the pending
reviewers (the empty-assignment guard is absorbed). -/
theorem remindersForSubmission_eq (db : Db) (c : Conference) (s : Submission) :
    remindersForSubmission db c s =
      (pendingReviewers db s).filterMap fun rId =>
        match findUser db rId with
        | some u =>
            match u.email with
            | some e =>
                if e ≠ "" then some (⟨e, rId, s.id, c.id⟩ : ReminderEmail) else none
            | none => none
        | none => none := by
  unfold remindersForSubmission
  by_cases ha : s.assignedReviewers = []
  · rw [if_pos ha]
    unfold pendingReviewers
    rw [ha]
    rfl
  · rw [if_neg ha]

/-- Every dispatched reminder email carries the submission and
conference ids of its group and a pending reviewer. -/
theorem mem_remindersForSubmission (db : Db) (c : Conference) (s : Submission)
    (m : ReminderEmail) (hm : m ∈ remindersForSubmission db c s) :
    m.submissionId = s.id ∧ m.conferenceId = c.id ∧
      m.reviewerId ∈ pendingReviewers db s := by
  rw [remindersForSubmission_eq] at hm
  obtain ⟨r, hr, hg⟩ := List.mem_filterMap.mp hm
  rcases hu : findUser db r with _ | u
  · rw [hu] at hg
    simp at hg
  · simp only [hu] at hg
    rcases hmail : u.email with _ | e
    · rw [hmail] at hg
      simp at hg
    · simp only [hmail] at hg
      by_cases he : e ≠ ""
      · rw [if_pos he] at hg
        cases hg
        exact ⟨rfl, rfl, hr⟩
      · rw [if_neg he] at hg
        simp at hg

/-- When every reviewer id resolves to a user with a truthy email, the
emails generated from a reviewer-id list contain one email per
occurrence of a reviewer id. -/
theorem reminder_filterMap_countP (db : Db) (sid cid rid : Nat) :
    ∀ l : List Nat,
      (∀ r ∈ l, ∃ u, findUser db r = some u ∧ emailTruthy u.email = true) →
      (l.filterMap (fun rId =>
        match findUser db rId with
        | some u =>
            match u.email with
            | some e =>
                if e ≠ "" then some (⟨e, rId, sid, cid⟩ : ReminderEmail) else none
            | none => none
        | none => none)).countP (fun m => m.reviewerId = rid) = l.count rid := by
  intro l
  induction l with
  | nil => intro _; rfl
  | cons r t ih =>
      intro hres
      obtain ⟨u, hu, he⟩ := hres r (List.mem_cons_self r t)
      rcases hmail : u.email with _ | e
      · rw [hmail] at he
        exact Bool.noConfusion he
      · have hene : e ≠ "" := by
          rw [hmail] at he
          exact of_decide_eq_true he
        simp only [List.filterMap_cons, hu, hmail, if_pos hene]
        rw [List.countP_cons,
          ih fun y hy => hres y (List.mem_cons_of_mem _ hy),
          List.count_cons]
        by_cases hreq : r = rid
        · rw [if_pos (decide_eq_true hreq), if_pos (beq_iff_eq.mpr hreq)]
        · rw [if_neg ?hL, if_neg ?hR]
          case hL =>
            intro h
            exact hreq (of_decide_eq_true h)
          case hR =>
            intro h
            exact hreq (beq_iff_eq.mp h)

/-- Counting an element that satisfies the filter predicate is
unchanged by the filter. -/
theorem count_filter_pos {α : Type} [BEq α] [LawfulBEq α] (p : α → Bool) (a : α)
    (l : List α) (h : p a = true) : (l.filter p).count a = l.count a :=
  List.count_filter h

/-- Per-submission reminder count for one assigned reviewer: zero when
the reviewer has a completed review, one otherwise. -/
theorem remindersForSubmission_countP (db : Db) (c : Conference)
    (s : Submission) (rid : Nat)
    (hnd : s.assignedReviewers.Nodup)
    (hres : ∀ r ∈ s.assignedReviewers,
      ∃ u, findUser db r = some u ∧ emailTruthy u.email = true)
    (hmem : rid ∈ s.assignedReviewers) :
    (remindersForSubmission db c s).countP (fun m => m.reviewerId = rid) =
      if rid ∈ completedReviewerIds db s then 0 else 1 := by
  rw [remindersForSubmission_eq,
    reminder_filterMap_countP db s.id c.id rid (pendingReviewers db s)
      (fun r hr => hres r (List.mem_filter.mp hr).1)]
  by_cases hc : rid ∈ completedReviewerIds db s
  · rw [if_pos hc, List.count_eq_zero]
    intro hmem'
    have h2 := (List.mem_filter.mp hmem').2
    exact (not_contains_iff _ _).mp h2 hc
  · rw [if_neg hc]
    unfold pendingReviewers
    rw [count_filter_pos _ rid _ ((not_contains_iff _ _).mpr hc)]
    exact List.count_eq_one_of_mem hnd hmem


/-- Left component of a boolean conjunction. -/
theorem bool_and_left {a b : Bool} (h : (a && b) = true) : a = true := by
  cases a
  · cases h
  · rfl

/-- Right component of a boolean conjunction. -/
theorem bool_and_right {a b : Bool} (h : (a && b) = true) : b = true := by
  cases a
  · cases h
  · cases b
    · cases h
    · rfl

/-- Building a boolean conjunction. -/
theorem bool_and_intro {a b : Bool} (h1 : a = true) (h2 : b = true) :
    (a && b) = true := by
  rw [h1, h2]
  rfl

/-- C1: in one run of the review reminder job, for a selected conference
and one of its reminder-eligible submissions — assuming well-formed data
(distinct conference and submission ids, distinct assigned reviewers,
every assigned reviewer resolving to a user with an email) — exactly one
email is dispatched per assigned reviewer lacking a completed review,
none for a reviewer with a completed review, and a submission with an
empty assignedReviewers list receives no emails. -/
theorem C1_reminder_emails_exact :
    ∀ (now : Int) (db : Db) (c : Conference) (s : Submission),
      (db.conferences.map (·.id)).Nodup →
      (db.submissions.map (·.id)).Nodup →
      c ∈ upcomingConferences now db →
      s ∈ reminderSubmissions db c →
      s.assignedReviewers.Nodup →
      (∀ r ∈ s.assignedReviewers,
        ∃ u, findUser db r = some u ∧ emailTruthy u.email = true) →
      (∀ rid ∈ s.assignedReviewers,
        (sendReviewReminders now db).countP
          (fun m => m.submissionId = s.id && m.reviewerId = rid) =
          if rid ∈ completedReviewerIds db s then 0 else 1) ∧
      (∀ m ∈ sendReviewReminders now db, m.submissionId = s.id →
        m.reviewerId ∈ s.assignedReviewers ∧
          m.reviewerId ∉ completedReviewerIds db s) ∧
      (s.assignedReviewers = [] →
        ∀ m ∈ sendReviewReminders now db, m.submissionId ≠ s.id) := by
  intro now db c s hndc hnds hc hs hndr hres
  have hcdb : c ∈ db.conferences := (List.mem_filter.mp hc).1
  have hsdb : s ∈ db.submissions := (List.mem_filter.mp hs).1
  have hs_conf : s.conferenceId = c.id :=
    of_decide_eq_true (bool_and_left (List.mem_filter.mp hs).2)
  have hsubinj := List.inj_on_of_nodup_map hnds
  have hconinj := List.inj_on_of_nodup_map hndc
  have hgroup : ∀ (conf : Conference) (m : ReminderEmail),
      m ∈ (reminderSubmissions db conf).flatMap (remindersForSubmission db conf) →
      ∃ sub ∈ db.submissions, sub.conferenceId = conf.id ∧
        m.submissionId = sub.id ∧ m.reviewerId ∈ pendingReviewers db sub := by
    intro conf m hm
    obtain ⟨sub, hsub, hm2⟩ := List.mem_flatMap.mp hm
    obtain ⟨hid, -, hrev⟩ := mem_remindersForSubmission db conf sub m hm2
    exact ⟨sub, (List.mem_filter.mp hsub).1,
      of_decide_eq_true (bool_and_left (List.mem_filter.mp hsub).2),
      hid, hrev⟩
  have part2 : ∀ m ∈ sendReviewReminders now db, m.submissionId = s.id →
      m.reviewerId ∈ s.assignedReviewers ∧
        m.reviewerId ∉ completedReviewerIds db s := by
    intro m hm hmid
    unfold sendReviewReminders at hm
    obtain ⟨conf, hconf, hm2⟩ := List.mem_flatMap.mp hm
    obtain ⟨sub, hsubdb, -, hid, hrev⟩ := hgroup conf m hm2
    have hseq : sub = s := hsubinj hsubdb hsdb (by rw [← hid]; exact hmid)
    rw [hseq] at hrev
    obtain ⟨hass, hcont⟩ := List.mem_filter.mp hrev
    exact ⟨hass, (not_contains_iff _ _).mp hcont⟩
  refine ⟨?_, part2, ?_⟩
  · intro rid hridmem
    unfold sendReviewReminders
    have hcu : (upcomingConferences now db).count c = 1 := by
      have hsub : List.Sublist (upcomingConferences now db) db.conferences :=
        List.filter_sublist _
      have hnd2 : ((upcomingConferences now db).map (·.id)).Nodup :=
        (hsub.map _).nodup hndc
      exact List.count_eq_one_of_mem (List.Nodup.of_map _ hnd2) hc
    have hczero : ∀ conf ∈ upcomingConferences now db, conf ≠ c →
        ((reminderSubmissions db conf).flatMap
          (remindersForSubmission db conf)).countP
          (fun m => m.submissionId = s.id && m.reviewerId = rid) = 0 := by
      intro conf hconf hne
      rw [List.countP_eq_zero]
      intro m hm hqm
      obtain ⟨sub, hsubdb, hsubconf, hid, -⟩ := hgroup conf m hm
      have h1 : m.submissionId = s.id :=
        of_decide_eq_true (bool_and_left hqm)
      have hseq : sub = s := hsubinj hsubdb hsdb (by rw [← hid]; exact h1)
      rw [hseq] at hsubconf
      exact hne (hconinj ((List.mem_filter.mp hconf).1) hcdb
        (by rw [← hsubconf]; exact hs_conf))
    rw [countP_flatMap_single _ _ c _ hcu hczero]
    have hcs : (reminderSubmissions db c).count s = 1 := by
      have hsub : List.Sublist (reminderSubmissions db c) db.submissions :=
        List.filter_sublist _
      have hnd2 : ((reminderSubmissions db c).map (·.id)).Nodup :=
        (hsub.map _).nodup hnds
      exact List.count_eq_one_of_mem (List.Nodup.of_map _ hnd2) hs
    have hszero : ∀ sub ∈ reminderSubmissions db c, sub ≠ s →
        (remindersForSubmission db c sub).countP
          (fun m => m.submissionId = s.id && m.reviewerId = rid) = 0 := by
      intro sub hsub hne
      rw [List.countP_eq_zero]
      intro m hm hqm
      obtain ⟨hid, -, -⟩ := mem_remindersForSubmission db c sub m hm
      have h1 : m.submissionId = s.id :=
        of_decide_eq_true (bool_and_left hqm)
      exact hne (hsubinj ((List.mem_filter.mp hsub).1) hsdb
        (by rw [← hid]; exact h1))
    rw [countP_flatMap_single _ _ s _ hcs hszero]
    have hcongr : (remindersForSubmission db c s).countP
        (fun m => m.submissionId = s.id && m.reviewerId = rid) =
        (remindersForSubmission db c s).countP (fun m => m.reviewerId = rid) := by
      apply List.countP_congr
      intro m hm
      obtain ⟨hid, -, -⟩ := mem_remindersForSubmission db c s m hm
      constructor
      · intro h
        exact bool_and_right h
      · intro h
        exact bool_and_intro (decide_eq_true hid) h
    rw [hcongr, remindersForSubmission_countP db c s rid hndr hres hridmem]
  · intro hempty m hm hmid
    obtain ⟨hass, -⟩ := part2 m hm hmid
    rw [hempty] at hass
    exact absurd hass (List.not_mem_nil _)


/-- C1 witness: a conference starting in 7 days with one submission
under review, reviewer 100 done and reviewer 101 pending, produces
exactly one email for reviewer 101 and none for reviewer 100. -/
theorem C1_reminder_emails_exact_witness :
    (sendReviewReminders 0 reminderExampleDb).countP
      (fun m => m.submissionId = 1 && m.reviewerId = 101) = 1 ∧
    (sendReviewReminders 0 reminderExampleDb).countP
      (fun m => m.submissionId = 1 && m.reviewerId = 100) = 0 := by
  have h := C1_reminder_emails_exact 0 reminderExampleDb reminderExampleConf
    reminderExampleSub (by decide) (by decide) (by decide) (by decide) (by decide)
    (fun r hr => by
      rcases List.mem_cons.mp hr with h1 | h1
      · exact ⟨⟨100, "R1", some "r1@x.com"⟩, by rw [h1]; decide, by decide⟩
      · rcases List.mem_cons.mp h1 with h2 | h2
        · exact ⟨⟨101, "R2", some "r2@x.com"⟩, by rw [h2]; decide, by decide⟩
        · exact absurd h2 (List.not_mem_nil r))
  constructor
  · have h1 := h.1 101 (by decide)
    rw [if_neg (by decide)] at h1
    exact h1
  · have h1 := h.1 100 (by decide)
    rw [if_pos (by decide)] at h1
    exact h1

/-- C4: the review reminder job selects a conference exactly when its
start date lies in the half-open window `[now + 7 days, now + 8 days)`,
and consequently runs spaced an exact number of days apart (daily runs)
never both select the same conference. -/
theorem C4_reminder_window_half_open :
    (∀ (now : Int) (db : Db) (c : Conference),
      c ∈ upcomingConferences now db ↔
        c ∈ db.conferences ∧ now + 7 * msPerDay ≤ c.startDate ∧
          c.startDate < now + 8 * msPerDay) ∧
    (∀ (t j k : Int) (db : Db) (c : Conference), j ≠ k →
      ¬(c ∈ upcomingConferences (t + j * msPerDay) db ∧
        c ∈ upcomingConferences (t + k * msPerDay) db)) := by
  have hmem : ∀ (now : Int) (db : Db) (c : Conference),
      c ∈ upcomingConferences now db ↔
        c ∈ db.conferences ∧ now + 7 * msPerDay ≤ c.startDate ∧
          c.startDate < now + 8 * msPerDay := by
    intro now db c
    simp [upcomingConferences, reminderWindow, List.mem_filter, and_assoc]
  refine ⟨hmem, ?_⟩
  rintro t j k db c hjk ⟨h1, h2⟩
  rw [hmem] at h1 h2
  obtain ⟨-, h1a, h1b⟩ := h1
  obtain ⟨-, h2a, h2b⟩ := h2
  simp only [msPerDay] at h1a h1b h2a h2b
  omega

/-- C4 witness: a conference starting exactly 7 days after run time 0 is
selected at run 0 but not at the next daily run. -/
theorem C4_reminder_window_half_open_witness :
    ¬((⟨1, "c", 1, 7 * msPerDay, none⟩ : Conference) ∈
        upcomingConferences (0 + 0 * msPerDay)
          ⟨[⟨1, "c", 1, 7 * msPerDay, none⟩], [], [], []⟩ ∧
      (⟨1, "c", 1, 7 * msPerDay, none⟩ : Conference) ∈
        upcomingConferences (0 + 1 * msPerDay)
          ⟨[⟨1, "c", 1, 7 * msPerDay, none⟩], [], [], []⟩) :=
  C4_reminder_window_half_open.2 0 0 1 _ _ (by decide)

/-- C7: the reminder job's completed-review status filter, the weekly
digest's completed-review count filter, and the digest's
awaiting-decision filter are the same predicate, selecting exactly the
statuses `submitted` and `pending_revision`. -/
theorem C7_completed_review_definition_uniform :
    ∀ st : ReviewStatus,
      reminderCompletedStatus st = digestCompletedStatus st ∧
      digestCompletedStatus st = awaitingCompletedStatus st ∧
      (reminderCompletedStatus st = true ↔
        st = ReviewStatus.submitted ∨ st = ReviewStatus.pending_revision) := by
  intro st
  cases st <;> simp [reminderCompletedStatus, digestCompletedStatus,
    awaitingCompletedStatus]

/-- C8: the aggregation's `majorityDecision` is present exactly when the
required count is positive and the completed-review count reaches it,
and when present it is one of ACCEPTED, REJECTED, NEEDS_REVISION. -/
theorem C8_majority_decision_presence :
    ∀ (reviews : List Review) (required : Nat),
      ((majorityDecision reviews required).isSome ↔
        0 < required ∧ required ≤ (aggCompletedReviews reviews).length) ∧
      ∀ d, majorityDecision reviews required = some d →
        d = Decision.ACCEPTED ∨ d = Decision.REJECTED ∨
          d = Decision.NEEDS_REVISION := by
  intro reviews required
  constructor
  · simp only [majorityDecision]
    split
    · next h =>
        have hc : 0 < required ∧ required ≤ (aggCompletedReviews reviews).length :=
          ⟨h.1, h.2⟩
        split <;> [simp [hc]; split <;> simp [hc]]
    · next h =>
        simp only [Option.isSome_none, Bool.false_eq_true, false_iff]
        intro hc
        exact h ⟨hc.1, hc.2⟩
  · intro d _
    cases d <;> simp

/-- C8 witness: with two completed reviews and `required = 2` the
decision is present; with `required = 0` it is absent. -/
theorem C8_majority_decision_presence_witness :
    (majorityDecision
      [⟨1, 1, 1, ReviewStatus.submitted, 5, some Recommendation.accept⟩,
       ⟨2, 1, 2, ReviewStatus.submitted, 6, some Recommendation.reject⟩] 2).isSome ∧
    ¬(majorityDecision ([] : List Review) 0).isSome :=
  ⟨(C8_majority_decision_presence _ 2).1.mpr (by decide),
   fun h => by
    have := (C8_majority_decision_presence ([] : List Review) 0).1.mp h
    simp at this⟩

/-- C3: the weekly digest's `awaitingDecision` counts exactly the
conference's submissions that are `under_review`, have a non-empty
`assignedReviewers` list, and whose number of reviews with status
`submitted` or `pending_revision` reaches the number of assigned
reviewers; on the spec §8 scenario (10 submissions, 3 accepted,
2 rejected, 5 under review with all assigned reviews completed) it
reports 5. -/
theorem C3_weekly_digest_awaiting_decision :
    (∀ (db : Db) (c : Conference),
      (digestStats db c).awaitingDecision =
        db.submissions.countP fun s =>
          s.conferenceId = c.id && s.status = SubmissionStatus.under_review &&
            s.assignedReviewers ≠ [] &&
            decide (s.assignedReviewers.length ≤
              db.reviews.countP fun r =>
                r.submissionId = s.id &&
                  (r.status = ReviewStatus.submitted ||
                    r.status = ReviewStatus.pending_revision))) ∧
    (digestStats digestExampleDb digestExampleConf).totalSubmissions = 10 ∧
    (digestStats digestExampleDb digestExampleConf).acceptedPapers = 3 ∧
    (digestStats digestExampleDb digestExampleConf).rejectedPapers = 2 ∧
    (digestStats digestExampleDb digestExampleConf).awaitingDecision = 5 := by
  refine ⟨?_, by decide, by decide, by decide, by decide⟩
  intro db c
  show awaitingDecisionCount db c = _
  unfold awaitingDecisionCount
  rw [foldl_if_count]
  unfold submissionsWithReviews
  rw [countP_filter_eq]
  simp only [Nat.zero_add]
  rfl

/-- C6 counterexample: with two active conferences where the stats
computation fails for the first one only, the run dispatches no email at
all — the second conference is active, its stats computation succeeds
and its digest email is well defined, yet it is never processed. -/
theorem C6_counterexample_stats_failure_not_isolated :
    sendWeeklyDigest 0 failDb (fun c => c.id ≠ 1) (fun _ => true) = [] ∧
    failConf2 ∈ activeConferences 0 failDb ∧
    (fun (c : Conference) => decide (c.id ≠ 1)) failConf2 = true ∧
    (digestEmailFor failDb failConf2).isSome := by
  decide

/-- C6 (amended): per-email dispatch failures are isolated — the
attempted digest emails do not depend on dispatch outcomes — but a
failure in the per-conference database work ends the run: the emails
attempted are exactly those of the longest prefix of active conferences
whose stats computations all succeed. -/
theorem C6_amended_digest_failure_semantics :
    ∀ (now : Int) (db : Db) (statsOk : Conference → Bool)
      (dispatchOk : DigestEmail → Bool),
      (sendWeeklyDigest now db statsOk dispatchOk).map Prod.fst =
        ((activeConferences now db).takeWhile statsOk).filterMap
          (digestEmailFor db) := by
  intro now db statsOk dispatchOk
  unfold sendWeeklyDigest
  induction activeConferences now db with
  | nil => rfl
  | cons c rest ih =>
      by_cases h : statsOk c
      · cases hm : digestEmailFor db c
        · simp [digestLoop, List.takeWhile_cons, h, hm, ih]
        · simp [digestLoop, List.takeWhile_cons, h, hm, ih]
      · simp [digestLoop, List.takeWhile_cons, h]

/-- Google callback, provider-id match: a role change to or from
organizer answers 403 and leaves the collection unchanged. -/
theorem google_id_organizer_conflict (db : List UserAcc)
    (gid email gname accessToken : String) (picture : Option String)
    (refreshToken : Option String) (r : Role) (u : UserAcc)
    (hfind : db.find? (·.googleId = some gid) = some u)
    (hcase : (u.role = Role.organizer ∧ r ≠ Role.organizer) ∨
      (u.role ≠ Role.organizer ∧ r = Role.organizer)) :
    googleCallback db gid email gname picture (some r) accessToken refreshToken =
      ⟨db, .error (403, .organizerRoleChangeForbidden)⟩ := by
  have hne : u.role ≠ r := by
    rcases hcase with ⟨h1, h2⟩ | ⟨h1, h2⟩
    · exact h1 ▸ fun he => h2 he.symm
    · exact fun he => h1 (h2 ▸ he)
  have hor : u.role = Role.organizer ∨ r = Role.organizer := by
    rcases hcase with ⟨h1, _⟩ | ⟨_, h2⟩
    · exact Or.inl h1
    · exact Or.inr h2
  simp only [googleCallback, hfind, Option.getD_some]
  rw [if_pos ⟨rfl, hne⟩, if_pos hor]

/-- Google callback, email match: an organizer/non-organizer conflict on
the email answers 403 and leaves the collection unchanged. -/
theorem google_email_organizer_conflict (db : List UserAcc)
    (gid email gname accessToken : String) (picture : Option String)
    (refreshToken : Option String) (r : Role)
    (hfind : db.find? (·.googleId = some gid) = none)
    (hne : db.filter (·.email = email) ≠ [])
    (hcase : (∃ v ∈ db.filter (·.email = email), v.role = Role.organizer) ∧
        r ≠ Role.organizer ∨
      r = Role.organizer ∧
        ∃ v ∈ db.filter (·.email = email), v.role ≠ Role.organizer) :
    (googleCallback db gid email gname picture (some r) accessToken
        refreshToken).db = db ∧
    ∃ tag, (googleCallback db gid email gname picture (some r) accessToken
        refreshToken).result = .error (403, tag) := by
  simp only [googleCallback, Option.getD_some, hfind]
  rcases hfil : db.filter (·.email = email) with _ | ⟨u0, us⟩
  · exact absurd hfil hne
  · simp only [hfil]
    by_cases horg : ((u0 :: us).any fun x => decide (x.role = Role.organizer)) = true
    · rw [if_pos horg]
      exact ⟨rfl, _, rfl⟩
    · rcases hcase with ⟨⟨v, hv, hvrole⟩, -⟩ | ⟨hreq, -⟩
      · rw [hfil] at hv
        exact absurd (List.any_eq_true.mpr ⟨v, hv, by simp [hvrole]⟩) horg
      · rw [if_neg horg, if_pos hreq]
        exact ⟨rfl, _, rfl⟩

/-- ORCID callback, provider-id match: a role change to or from
organizer answers 403 and leaves the collection unchanged. -/
theorem orcid_id_organizer_conflict (db : List UserAcc)
    (orcid oname profileName profileAffiliation accessToken : String)
    (r : Role) (u : UserAcc)
    (hfind : db.find? (·.orcid = some orcid) = some u)
    (hcase : (u.role = Role.organizer ∧ r ≠ Role.organizer) ∨
      (u.role ≠ Role.organizer ∧ r = Role.organizer)) :
    orcidCallback db orcid oname profileName profileAffiliation (some r)
        accessToken =
      ⟨db, .error (403, .organizerRoleChangeForbidden)⟩ := by
  have hne : u.role ≠ r := by
    rcases hcase with ⟨h1, h2⟩ | ⟨h1, h2⟩
    · exact h1 ▸ fun he => h2 he.symm
    · exact fun he => h1 (h2 ▸ he)
  have hor : u.role = Role.organizer ∨ r = Role.organizer := by
    rcases hcase with ⟨h1, _⟩ | ⟨_, h2⟩
    · exact Or.inl h1
    · exact Or.inr h2
  simp only [orcidCallback, hfind, Option.getD_some]
  rw [if_pos ⟨rfl, hne⟩, if_pos hor]

/-- ORCID callback, email match: an organizer/non-organizer conflict on
the generated email answers 403 and leaves the collection unchanged. -/
theorem orcid_email_organizer_conflict (db : List UserAcc)
    (orcid oname profileName profileAffiliation accessToken : String)
    (r : Role)
    (hfind : db.find? (·.orcid = some orcid) = none)
    (hne : db.filter (·.email = orcidEmail orcid) ≠ [])
    (hcase : (∃ v ∈ db.filter (·.email = orcidEmail orcid),
          v.role = Role.organizer) ∧ r ≠ Role.organizer ∨
      r = Role.organizer ∧
        ∃ v ∈ db.filter (·.email = orcidEmail orcid),
          v.role ≠ Role.organizer) :
    (orcidCallback db orcid oname profileName profileAffiliation (some r)
        accessToken).db = db ∧
    ∃ tag, (orcidCallback db orcid oname profileName profileAffiliation (some r)
        accessToken).result = .error (403, tag) := by
  simp only [orcidCallback, Option.getD_some, hfind]
  rcases hfil : db.filter (·.email = orcidEmail orcid) with _ | ⟨u0, us⟩
  · exact absurd hfil hne
  · simp only [hfil]
    by_cases horg : ((u0 :: us).any fun x => decide (x.role = Role.organizer)) = true
    · rw [if_pos horg]
      exact ⟨rfl, _, rfl⟩
    · rcases hcase with ⟨⟨v, hv, hvrole⟩, -⟩ | ⟨hreq, -⟩
      · rw [hfil] at hv
        exact absurd (List.any_eq_true.mpr ⟨v, hv, by simp [hvrole]⟩) horg
      · rw [if_neg horg, if_pos hreq]
        exact ⟨rfl, _, rfl⟩

/-- C2: on a Google or ORCID login with an explicitly requested role,
an existing account — matched by provider identifier, or by email when
no provider-identifier match exists — whose role conflicts with the
requested role across the organizer boundary (organizer vs
non-organizer, in either direction) makes the callback answer 403 and
leaves the user collection unchanged. -/
theorem C2_oauth_organizer_exclusivity :
    ∀ (db : List UserAcc) (r : Role) (accessToken : String),
      (∀ (gid email gname : String) (picture refreshToken : Option String),
        (∀ u, db.find? (·.googleId = some gid) = some u →
          (u.role = Role.organizer ∧ r ≠ Role.organizer) ∨
            (u.role ≠ Role.organizer ∧ r = Role.organizer) →
          (googleCallback db gid email gname picture (some r) accessToken
              refreshToken).db = db ∧
          ∃ tag, (googleCallback db gid email gname picture (some r) accessToken
              refreshToken).result = .error (403, tag)) ∧
        (db.find? (·.googleId = some gid) = none →
          db.filter (·.email = email) ≠ [] →
          ((∃ v ∈ db.filter (·.email = email), v.role = Role.organizer) ∧
              r ≠ Role.organizer ∨
            r = Role.organizer ∧
              ∃ v ∈ db.filter (·.email = email), v.role ≠ Role.organizer) →
          (googleCallback db gid email gname picture (some r) accessToken
              refreshToken).db = db ∧
          ∃ tag, (googleCallback db gid email gname picture (some r) accessToken
              refreshToken).result = .error (403, tag))) ∧
      (∀ (orcid oname profileName profileAffiliation : String),
        (∀ u, db.find? (·.orcid = some orcid) = some u →
          (u.role = Role.organizer ∧ r ≠ Role.organizer) ∨
            (u.role ≠ Role.organizer ∧ r = Role.organizer) →
          (orcidCallback db orcid oname profileName profileAffiliation (some r)
              accessToken).db = db ∧
          ∃ tag, (orcidCallback db orcid oname profileName profileAffiliation
              (some r) accessToken).result = .error (403, tag)) ∧
        (db.find? (·.orcid = some orcid) = none →
          db.filter (·.email = orcidEmail orcid) ≠ [] →
          ((∃ v ∈ db.filter (·.email = orcidEmail orcid),
              v.role = Role.organizer) ∧ r ≠ Role.organizer ∨
            r = Role.organizer ∧
              ∃ v ∈ db.filter (·.email = orcidEmail orcid),
                v.role ≠ Role.organizer) →
          (orcidCallback db orcid oname profileName profileAffiliation (some r)
              accessToken).db = db ∧
          ∃ tag, (orcidCallback db orcid oname profileName profileAffiliation
              (some r) accessToken).result = .error (403, tag))) := by
  intro db r accessToken
  refine ⟨fun gid email gname picture refreshToken => ⟨?_, ?_⟩,
    fun orcid oname profileName profileAffiliation => ⟨?_, ?_⟩⟩
  · intro u hfind hcase
    rw [google_id_organizer_conflict db gid email gname accessToken picture
      refreshToken r u hfind hcase]
    exact ⟨rfl, _, rfl⟩
  · intro hfind hne hcase
    exact google_email_organizer_conflict db gid email gname accessToken picture
      refreshToken r hfind hne hcase
  · intro u hfind hcase
    rw [orcid_id_organizer_conflict db orcid oname profileName profileAffiliation
      accessToken r u hfind hcase]
    exact ⟨rfl, _, rfl⟩
  · intro hfind hne hcase
    exact orcid_email_organizer_conflict db orcid oname profileName
      profileAffiliation accessToken r hfind hne hcase

/-- C2 witness: a reviewer-role Google login against an organizer
account holding that Google id is rejected and the collection is
unchanged. -/
theorem C2_oauth_organizer_exclusivity_witness :
    (googleCallback
        [{ id := 1, name := "O", email := "o@x.com", role := Role.organizer,
           googleId := some "g1" }]
        "g1" "o@x.com" "N" none (some Role.reviewer) "tok" none).db =
      [{ id := 1, name := "O", email := "o@x.com", role := Role.organizer,
         googleId := some "g1" }] ∧
    ∃ tag,
      (googleCallback
          [{ id := 1, name := "O", email := "o@x.com", role := Role.organizer,
             googleId := some "g1" }]
          "g1" "o@x.com" "N" none (some Role.reviewer) "tok" none).result =
        .error (403, tag) :=
  ((C2_oauth_organizer_exclusivity _ Role.reviewer "tok").1 "g1" "o@x.com" "N"
      none none).1
    { id := 1, name := "O", email := "o@x.com", role := Role.organizer,
      googleId := some "g1" }
    (by decide) (Or.inl ⟨rfl, by decide⟩)

/-- Google callback, provider-id match, non-organizer role switch:
the matched account is updated in place. -/
theorem google_id_role_switch (db : List UserAcc)
    (gid email gname accessToken : String) (picture refreshToken : Option String)
    (r : Role) (u : UserAcc)
    (hfind : db.find? (·.googleId = some gid) = some u)
    (huro : u.role ≠ Role.organizer) (hro : r ≠ Role.organizer)
    (hur : u.role ≠ r) :
    googleCallback db gid email gname picture (some r) accessToken refreshToken =
      ⟨saveUser db
        { u with role := r, googleAccessToken := some accessToken,
                 googleRefreshToken :=
                   match refreshToken with
                   | some rt => some rt
                   | none => u.googleRefreshToken },
       .ok { u with role := r, googleAccessToken := some accessToken,
                    googleRefreshToken :=
                      match refreshToken with
                      | some rt => some rt
                      | none => u.googleRefreshToken }⟩ := by
  simp only [googleCallback, hfind, Option.getD_some]
  rw [if_pos ⟨rfl, hur⟩, if_neg ?_]
  rintro (h | h)
  · exact huro h
  · exact hro h

/-- ORCID callback, provider-id match, non-organizer role switch:
the matched account is updated in place. -/
theorem orcid_id_role_switch (db : List UserAcc)
    (orcid oname profileName profileAffiliation accessToken : String)
    (r : Role) (u : UserAcc)
    (hfind : db.find? (·.orcid = some orcid) = some u)
    (huro : u.role ≠ Role.organizer) (hro : r ≠ Role.organizer)
    (hur : u.role ≠ r) :
    orcidCallback db orcid oname profileName profileAffiliation (some r)
        accessToken =
      ⟨saveUser db { u with role := r, orcidAccessToken := some accessToken },
       .ok { u with role := r, orcidAccessToken := some accessToken }⟩ := by
  simp only [orcidCallback, hfind, Option.getD_some]
  rw [if_pos ⟨rfl, hur⟩, if_neg ?_]
  rintro (h | h)
  · exact huro h
  · exact hro h

/-- A non-organizer role is in `allowedRoles`. -/
theorem mem_allowedRoles_of_ne_organizer (r : Role) (hro : r ≠ Role.organizer) :
    r ∈ allowedRoles := by
  cases r
  · exact absurd rfl hro
  · simp [allowedRoles]
  · simp [allowedRoles]
  · simp [allowedRoles]

/-- Google callback, email match among non-organizer accounts,
non-organizer requested role: the first matched account is linked and
updated in place. -/
theorem google_email_role_switch (db : List UserAcc)
    (gid email gname accessToken : String) (picture refreshToken : Option String)
    (r : Role) (u0 : UserAcc) (us : List UserAcc)
    (hfind : db.find? (·.googleId = some gid) = none)
    (hfil : db.filter (·.email = email) = u0 :: us)
    (hnorg : ∀ v ∈ db.filter (·.email = email), v.role ≠ Role.organizer)
    (hro : r ≠ Role.organizer) :
    googleCallback db gid email gname picture (some r) accessToken refreshToken =
      ⟨saveUser db
        { u0 with googleId := some gid,
                  googleAccessToken := some accessToken,
                  googleRefreshToken :=
                    match refreshToken with
                    | some rt => some rt
                    | none => u0.googleRefreshToken,
                  profilePicture :=
                    match picture, u0.profilePicture with
                    | some p, none => some p
                    | _, old => old,
                  role := r },
       .ok { u0 with googleId := some gid,
                     googleAccessToken := some accessToken,
                     googleRefreshToken :=
                       match refreshToken with
                       | some rt => some rt
                       | none => u0.googleRefreshToken,
                     profilePicture :=
                       match picture, u0.profilePicture with
                       | some p, none => some p
                       | _, old => old,
                     role := r }⟩ := by
  have horg : ¬((u0 :: us).any fun x => decide (x.role = Role.organizer)) = true := by
    intro h
    obtain ⟨v, hv, hvr⟩ := List.any_eq_true.mp h
    exact hnorg v (by rw [hfil]; exact hv) (by simpa using hvr)
  simp only [googleCallback, hfind, Option.getD_some, hfil]
  rw [if_neg horg, if_neg hro,
    if_pos ⟨rfl, mem_allowedRoles_of_ne_organizer r hro⟩]

/-- ORCID callback, email match among non-organizer accounts,
non-organizer requested role: the first matched account is linked and
updated in place. -/
theorem orcid_email_role_switch (db : List UserAcc)
    (orcid oname profileName profileAffiliation accessToken : String)
    (r : Role) (u0 : UserAcc) (us : List UserAcc)
    (hfind : db.find? (·.orcid = some orcid) = none)
    (hfil : db.filter (·.email = orcidEmail orcid) = u0 :: us)
    (hnorg : ∀ v ∈ db.filter (·.email = orcidEmail orcid),
      v.role ≠ Role.organizer)
    (hro : r ≠ Role.organizer) :
    orcidCallback db orcid oname profileName profileAffiliation (some r)
        accessToken =
      ⟨saveUser db
        { u0 with orcid := some orcid,
                  orcidAccessToken := some accessToken,
                  name := jsOr profileName (jsOr oname u0.name),
                  affiliation :=
                    if profileAffiliation ≠ "" then profileAffiliation
                    else u0.affiliation,
                  role := r },
       .ok { u0 with orcid := some orcid,
                     orcidAccessToken := some accessToken,
                     name := jsOr profileName (jsOr oname u0.name),
                     affiliation :=
                       if profileAffiliation ≠ "" then profileAffiliation
                       else u0.affiliation,
                     role := r }⟩ := by
  have horg : ¬((u0 :: us).any fun x => decide (x.role = Role.organizer)) = true := by
    intro h
    obtain ⟨v, hv, hvr⟩ := List.any_eq_true.mp h
    exact hnorg v (by rw [hfil]; exact hv) (by simpa using hvr)
  simp only [orcidCallback, hfind, Option.getD_some, hfil]
  rw [if_neg horg, if_neg hro,
    if_pos ⟨rfl, mem_allowedRoles_of_ne_organizer r hro⟩]

/-- C5: on a Google or ORCID login explicitly requesting a non-organizer
role, an existing non-organizer account — matched by provider
identifier, or by email when no provider-identifier match exists — is
reused: the callback succeeds with that account's role updated to the
requested role, saved in place, and the collection does not grow. -/
theorem C5_oauth_nonorganizer_role_switch :
    ∀ (db : List UserAcc) (r : Role) (accessToken : String),
      r ≠ Role.organizer →
      (∀ (gid email gname : String) (picture refreshToken : Option String),
        (∀ u, db.find? (·.googleId = some gid) = some u →
          u.role ≠ Role.organizer → u.role ≠ r →
          ∃ u', (googleCallback db gid email gname picture (some r) accessToken
              refreshToken).result = .ok u' ∧
            u'.id = u.id ∧ u'.email = u.email ∧ u'.role = r ∧
            (googleCallback db gid email gname picture (some r) accessToken
              refreshToken).db = saveUser db u' ∧
            (googleCallback db gid email gname picture (some r) accessToken
              refreshToken).db.length = db.length) ∧
        (∀ u0 us, db.find? (·.googleId = some gid) = none →
          db.filter (·.email = email) = u0 :: us →
          (∀ v ∈ db.filter (·.email = email), v.role ≠ Role.organizer) →
          u0.role ≠ r →
          ∃ u', (googleCallback db gid email gname picture (some r) accessToken
              refreshToken).result = .ok u' ∧
            u'.id = u0.id ∧ u'.email = u0.email ∧ u'.role = r ∧
            u'.googleId = some gid ∧
            (googleCallback db gid email gname picture (some r) accessToken
              refreshToken).db = saveUser db u' ∧
            (googleCallback db gid email gname picture (some r) accessToken
              refreshToken).db.length = db.length)) ∧
      (∀ (orcid oname profileName profileAffiliation : String),
        (∀ u, db.find? (·.orcid = some orcid) = some u →
          u.role ≠ Role.organizer → u.role ≠ r →
          ∃ u', (orcidCallback db orcid oname profileName profileAffiliation
              (some r) accessToken).result = .ok u' ∧
            u'.id = u.id ∧ u'.email = u.email ∧ u'.role = r ∧
            (orcidCallback db orcid oname profileName profileAffiliation
              (some r) accessToken).db = saveUser db u' ∧
            (orcidCallback db orcid oname profileName profileAffiliation
              (some r) accessToken).db.length = db.length) ∧
        (∀ u0 us, db.find? (·.orcid = some orcid) = none →
          db.filter (·.email = orcidEmail orcid) = u0 :: us →
          (∀ v ∈ db.filter (·.email = orcidEmail orcid),
            v.role ≠ Role.organizer) →
          u0.role ≠ r →
          ∃ u', (orcidCallback db orcid oname profileName profileAffiliation
              (some r) accessToken).result = .ok u' ∧
            u'.id = u0.id ∧ u'.email = u0.email ∧ u'.role = r ∧
            u'.orcid = some orcid ∧
            (orcidCallback db orcid oname profileName profileAffiliation
              (some r) accessToken).db = saveUser db u' ∧
            (orcidCallback db orcid oname profileName profileAffiliation
              (some r) accessToken).db.length = db.length)) := by
  intro db r accessToken hro
  refine ⟨fun gid email gname picture refreshToken => ⟨?_, ?_⟩,
    fun orcid oname profileName profileAffiliation => ⟨?_, ?_⟩⟩
  · intro u hfind huro hur
    rw [google_id_role_switch db gid email gname accessToken picture
      refreshToken r u hfind huro hro hur]
    exact ⟨_, rfl, rfl, rfl, rfl, rfl, List.length_map db _⟩
  · intro u0 us hfind hfil hnorg _
    rw [google_email_role_switch db gid email gname accessToken picture
      refreshToken r u0 us hfind hfil hnorg hro]
    exact ⟨_, rfl, rfl, rfl, rfl, rfl, rfl, List.length_map db _⟩
  · intro u hfind huro hur
    rw [orcid_id_role_switch db orcid oname profileName profileAffiliation
      accessToken r u hfind huro hro hur]
    exact ⟨_, rfl, rfl, rfl, rfl, rfl, List.length_map db _⟩
  · intro u0 us hfind hfil hnorg _
    rw [orcid_email_role_switch db orcid oname profileName profileAffiliation
      accessToken r u0 us hfind hfil hnorg hro]
    exact ⟨_, rfl, rfl, rfl, rfl, rfl, rfl, List.length_map db _⟩

/-- C5 witness: a reviewer-role Google login against an author account
holding that Google id switches the account's role to reviewer in place,
without growing the collection. -/
theorem C5_oauth_nonorganizer_role_switch_witness :
    ∃ u', (googleCallback
        [{ id := 1, name := "A", email := "a@x.com", role := Role.author,
           googleId := some "g1" }]
        "g1" "a@x.com" "N" none (some Role.reviewer) "tok" none).result =
      .ok u' ∧
      u'.id = 1 ∧ u'.email = "a@x.com" ∧ u'.role = Role.reviewer ∧
      (googleCallback
        [{ id := 1, name := "A", email := "a@x.com", role := Role.author,
           googleId := some "g1" }]
        "g1" "a@x.com" "N" none (some Role.reviewer) "tok" none).db =
        saveUser
          [{ id := 1, name := "A", email := "a@x.com", role := Role.author,
             googleId := some "g1" }] u' ∧
      (googleCallback
        [{ id := 1, name := "A", email := "a@x.com", role := Role.author,
           googleId := some "g1" }]
        "g1" "a@x.com" "N" none (some Role.reviewer) "tok" none).db.length = 1 :=
  ((C5_oauth_nonorganizer_role_switch _ Role.reviewer "tok" (by decide)).1
      "g1" "a@x.com" "N" none none).1
    { id := 1, name := "A", email := "a@x.com", role := Role.author,
      googleId := some "g1" }
    (by decide) (by decide) (by decide)

/-- C9: a password registration for an email that matches at least one
existing account always answers 400 and leaves the user collection
unchanged. -/
theorem C9_register_existing_email_rejected :
    ∀ (db : List UserAcc) (name email password : String) (role : Role)
      (eds : List String),
      db.filter (·.email = email) ≠ [] →
      (register db name email password role eds).db = db ∧
      ∃ tag, (register db name email password role eds).result =
        .error (400, tag) := by
  intro db name email password role eds hne
  unfold register
  rcases hfil : db.filter (·.email = email) with _ | ⟨u, us⟩
  · exact absurd hfil hne
  · simp only [hfil]
    split
    · exact ⟨rfl, _, rfl⟩
    · split
      · exact ⟨rfl, _, rfl⟩
      · split
        · exact ⟨rfl, _, rfl⟩
        · exact ⟨rfl, _, rfl⟩

/-- C9 witness: registering `reviewer` on an email held by an `author`
account (the case OAuth linking would permit) is rejected with 400 and
the collection is unchanged. -/
theorem C9_register_existing_email_rejected_witness :
    (register [{ id := 1, name := "A", email := "a@x.com", role := Role.author }]
        "B" "a@x.com" "secret123" Role.reviewer []).db =
      [{ id := 1, name := "A", email := "a@x.com", role := Role.author }] ∧
    ∃ tag,
      (register [{ id := 1, name := "A", email := "a@x.com", role := Role.author }]
          "B" "a@x.com" "secret123" Role.reviewer []).result = .error (400, tag) :=
  C9_register_existing_email_rejected _ "B" "a@x.com" "secret123" Role.reviewer []
    (by decide)

/-- A character whose lower-casing is one of `.`, `p`, `d`, `f` is left
unchanged by the filename sanitizer. -/
theorem sanitizeChar_eq_self_of_toLower_pdf (c : Char)
    (h : c.toLower = '.' ∨ c.toLower = 'p' ∨ c.toLower = 'd' ∨ c.toLower = 'f') :
    sanitizeChar c = c := by
  unfold Char.toLower at h
  by_cases hc : Char.toNat c ≥ 65 ∧ Char.toNat c ≤ 90
  · have hup : c.isUpper = true := by
      unfold Char.isUpper
      have h1 : (65 : UInt32) ≤ c.val := by
        rw [UInt32.le_def, BitVec.le_def]
        exact hc.1
      have h2 : c.val ≤ (90 : UInt32) := by
        rw [UInt32.le_def, BitVec.le_def]
        exact hc.2
      simp [h1, h2]
    have hA : c.isAlpha = true := by
      unfold Char.isAlpha
      simp [hup]
    unfold sanitizeChar
    simp [hA]
  · rw [if_neg hc] at h
    rcases h with h | h | h | h <;> rw [h] <;> decide

/-- Appending a literal `.pdf` yields a case-insensitive `.pdf` suffix. -/
theorem endsWithPdfCI_append_pdf (l : List Char) :
    endsWithPdfCI (l ++ ".pdf".toList) = true := by
  rw [endsWithPdfCI, List.isSuffixOf_iff_suffix, List.map_append]
  have hm : List.map Char.toLower ".pdf".toList = ".pdf".toList := rfl
  rw [hm]
  exact List.suffix_append _ _

/-- The sanitizer distributes over append. -/
theorem sanitizeFilename_append (a b : List Char) :
    sanitizeFilename (a ++ b) = sanitizeFilename a ++ sanitizeFilename b :=
  List.map_append _ a b

/-- The sanitizer preserves a case-insensitive `.pdf` suffix. -/
theorem endsWithPdfCI_sanitizeFilename (l : List Char)
    (h : endsWithPdfCI l = true) :
    endsWithPdfCI (sanitizeFilename l) = true := by
  induction l with
  | nil => revert h; decide
  | cons c t ih =>
      rw [endsWithPdfCI, List.isSuffixOf_iff_suffix, List.map_cons] at h
      rcases List.suffix_cons_iff.mp h with heq | hsuf
      · rw [show ".pdf".toList = ['.', 'p', 'd', 'f'] from rfl] at heq
        injection heq with h1 h2
        rcases t with _ | ⟨c2, t⟩
        · simp at h2
        rw [List.map_cons] at h2
        injection h2 with h2a h2b
        rcases t with _ | ⟨c3, t⟩
        · simp at h2b
        rw [List.map_cons] at h2b
        injection h2b with h3a h3b
        rcases t with _ | ⟨c4, t⟩
        · simp at h3b
        rw [List.map_cons] at h3b
        injection h3b with h4a h4b
        have ht : t = [] := by
          cases t
          · rfl
          · simp at h4b
        subst ht
        have s1 := sanitizeChar_eq_self_of_toLower_pdf c (Or.inl h1.symm)
        have s2 := sanitizeChar_eq_self_of_toLower_pdf c2 (Or.inr (Or.inl h2a.symm))
        have s3 := sanitizeChar_eq_self_of_toLower_pdf c3
          (Or.inr (Or.inr (Or.inl h3a.symm)))
        have s4 := sanitizeChar_eq_self_of_toLower_pdf c4
          (Or.inr (Or.inr (Or.inr h4a.symm)))
        rw [endsWithPdfCI, List.isSuffixOf_iff_suffix]
        unfold sanitizeFilename
        rw [show List.map sanitizeChar [c, c2, c3, c4] =
          [sanitizeChar c, sanitizeChar c2, sanitizeChar c3, sanitizeChar c4]
          from rfl]
        rw [s1, s2, s3, s4]
        rw [show List.map Char.toLower [c, c2, c3, c4] =
          [c.toLower, c2.toLower, c3.toLower, c4.toLower] from rfl]
        rw [← h1, ← h2a, ← h3a, ← h4a]
        exact List.suffix_rfl
      · have ih' : endsWithPdfCI (sanitizeFilename t) = true := by
          apply ih
          rw [endsWithPdfCI, List.isSuffixOf_iff_suffix]
          exact hsuf
        rw [endsWithPdfCI, List.isSuffixOf_iff_suffix] at ih' ⊢
        rw [show sanitizeFilename (c :: t) =
          sanitizeChar c :: sanitizeFilename t from rfl]
        rw [List.map_cons]
        exact ih'.trans (List.suffix_cons _ _)

/-- C10: `extractFilename` always returns a name with a
case-insensitive `.pdf` suffix — for empty input it is the default name
with `.pdf`; a Cloudinary generated name collapses to the default; the
last path segment is used with query parameters removed and unsafe
characters replaced. -/
theorem C10_extractFilename_pdf_suffix :
    (∀ (fileUrl defaultName : List Char),
      endsWithPdfCI (extractFilename fileUrl defaultName) = true) ∧
    extractFilename "".toList "paper".toList = "paper.pdf".toList ∧
    extractFilename
      "https://res.cloudinary.com/demo/raw/upload/v1/conference-papers/paper-123-456.pdf".toList
      "paper".toList = "paper.pdf".toList ∧
    extractFilename "https://x.com/papers/My Paper.pdf?dl=1".toList
      "paper".toList = "My_Paper.pdf".toList := by
  refine ⟨?_, by decide, by decide, by decide⟩
  intro u d
  simp only [extractFilename]
  split
  · exact endsWithPdfCI_append_pdf d
  · split
    · split
      · next h1 => exact endsWithPdfCI_sanitizeFilename _ h1
      · rw [sanitizeFilename_append]
        rw [show sanitizeFilename ".pdf".toList = ".pdf".toList from rfl]
        exact endsWithPdfCI_append_pdf _
    · split
      · next h1 => exact endsWithPdfCI_sanitizeFilename _ h1
      · rw [sanitizeFilename_append]
        rw [show sanitizeFilename ".pdf".toList = ".pdf".toList from rfl]
        exact endsWithPdfCI_append_pdf _

end CMS
